import Mathlib

/-!
Shallow embedding of the KL-G2 printer utility (klg2.c) and proofs about it.

The embedding models:
* the raster chunking loop `printer_send_raster` as a function from the
  pattern byte list to the sequence of protocol commands it emits when
  every response is an ACK (failure of a command aborts the transfer in
  the C code; the claims below are about the emitted command stream);
* the ACK validator `printer_recv_ack` on the received response bytes;
* the wire framing of `send_to_printer` (zero padding to the endpoint size);
* the PBM loader `load_image`: vertical centering into the 128-row canvas
  and the column-major bit transpose into the pattern buffer;
* the command sequencing of `main` at the granularity of `printer_*` calls,
  parameterised by an oracle giving the return code of each call in order.

Bytes are modelled as `Nat` (all byte values in the program fit in 0..255;
no arithmetic in the modelled code can overflow a C `int`). Out-of-bounds
reads are modelled by `Option`: `printer_send_raster` returns `none` when
its do-while body would read past the end of the pattern buffer, which
happens exactly for the empty pattern.
-/

/-- Protocol commands emitted by the raster transfer loop. -/
inductive Cmd where
  | rasterBlock (payload : List Nat) : Cmd
  | rasterEnd : Cmd
  | printPage : Cmd
deriving DecidableEq

/-- One iteration of the do-while body of `printer_send_raster`
(klg2.c lines 475-498), after the byte `b` has been appended: given the
page accumulator and the pending block bytes, returns the commands emitted
by this iteration together with the new page accumulator and pending block.
`isLast` is the C condition `sent_size == rawsize`. -/
def rasterStep (page : Nat) (acc : List Nat) (b : Nat) (isLast : Bool) :
    List Cmd × Nat × List Nat :=
  let acc' := acc ++ [b]
  let page' := page + 1
  if acc'.length = 60 ∨ page' = 8192 ∨ isLast then
    (Cmd.rasterBlock acc' ::
       ((if isLast then [Cmd.rasterEnd] else []) ++
        (if page' = 8192 ∨ isLast then [Cmd.printPage] else [])),
     (if page' = 8192 ∨ isLast then 0 else page'),
     [])
  else ([], page', acc')

/-- The do-while loop of `printer_send_raster`, processing the remaining
bytes of the pattern. Returns `none` when the body would read past the end
of the buffer (which happens exactly when the loop is entered with no bytes
remaining, i.e. for `rawsize = 0`). -/
def sendRasterGo : Nat → List Nat → List Nat → Option (List Cmd)
  | _, _, [] => none
  | page, acc, b :: rest =>
    let s := rasterStep page acc b rest.isEmpty
    if rest.isEmpty then some s.1
    else Option.map (fun t => s.1 ++ t) (sendRasterGo s.2.1 s.2.2 rest)

/-- `printer_send_raster` (klg2.c lines 469-501): stream the pattern as
raster blocks, with `sent_size = 0`, `page_size = 0`, `block_size = 0`
initially. The result is the emitted command sequence (assuming each
command is acknowledged), or `none` on the out-of-bounds read that the C
code performs when `rawsize = 0`. -/
def printer_send_raster (raw : List Nat) : Option (List Cmd) :=
  sendRasterGo 0 [] raw

/-- The payload sizes of the raster blocks of a command trace, in order. -/
def blockSizes (t : List Cmd) : List Nat :=
  t.filterMap fun c => match c with
    | Cmd.rasterBlock p => some p.length
    | _ => none

/-- The concatenation of all raster block payloads of a command trace. -/
def joinBlocks (t : List Cmd) : List Nat :=
  t.flatMap fun c => match c with
    | Cmd.rasterBlock p => p
    | _ => []

/-- The payload size of the last raster block of a transfer, if any. -/
def lastBlock? (o : Option (List Cmd)) : Option Nat :=
  match o with
  | none => none
  | some t => (blockSizes t).getLast?

/-- ACK byte (klg2.c line 90). -/
def PRINTER_ACK : Nat := 0x06

/-- STX byte (klg2.c line 92). -/
def PRINTER_STX : Nat := 0x02

/-- Margin code for the small margin (klg2.c line 55). -/
def MARGINCODE_SMALL : Nat := 0x40

/-- `printer_recv_ack` (klg2.c lines 204-213) applied to the received
response bytes: returns 0 iff the response is a single ACK byte. -/
def printer_recv_ack (rsp : List Nat) : Nat :=
  if rsp.length ≠ 1 ∨ rsp.getD 0 0 ≠ PRINTER_ACK then 1 else 0

/-- `send_to_printer` (klg2.c lines 145-176): the wire frame actually
transferred for a payload `d` at endpoint transfer size `epsize` is the
payload zero-padded to exactly `epsize` bytes; a payload larger than
`epsize` aborts (modelled as `none`). -/
def send_to_printer (d : List Nat) (epsize : Nat) : Option (List Nat) :=
  if d.length ≤ epsize then some (d ++ List.replicate (epsize - d.length) 0)
  else none

/-- The wire frame built by `printer_set_margin` (klg2.c lines 340-348):
payload `[STX, 0x0D, 0x01, 0x00, marginid]` sent at transfer size 16. -/
def printer_set_margin_frame (marginid : Nat) : Option (List Nat) :=
  send_to_printer [PRINTER_STX, 0x0D, 0x01, 0x00, marginid] 16

/-- The centered 128-row canvas built by `load_image`
(klg2.c lines 530-553): the image height is clamped to 128, the image is
placed `pad_h = (128 - img_h) / 2` rows from the top, and all other rows
are zero (`calloc`). `rows i` is row `i` of the bitmap, `wbytes` the
number of bytes per row. -/
def image_stripes (height : Nat) (rows : Nat → List Nat) (wbytes : Nat)
    (i : Nat) : List Nat :=
  let img_h := min height 128
  let pad_h := (128 - img_h) / 2
  if pad_h ≤ i ∧ i < pad_h + img_h then rows (i - pad_h)
  else List.replicate wbytes 0

/-- OR bit `bit` into byte `idx` of the pattern buffer:
`pattern[idx] |= 1 << bit`. -/
def orBit (pat : Nat → Nat) (idx bit : Nat) : Nat → Nat :=
  fun j => if j = idx then pat idx ||| (1 <<< bit) else pat j

/-- The transpose loop of `load_image` (klg2.c lines 562-575): for every
canvas row `i`, row byte `w` and bit `b` (output column `x = w*8 + b`), if
the pixel is set then OR bit `i % 8` into pattern byte
`x * (IMAGE_ROWS/8) + i/8 = x*16 + i/8`. The pattern starts zeroed
(`calloc`). -/
def transposeLoop (stripes : Nat → List Nat) (wbytes : Nat) : Nat → Nat :=
  (List.range 128).foldl
    (fun pat i =>
      (List.range wbytes).foldl
        (fun pat w =>
          (List.range 8).foldl
            (fun pat b =>
              if ((((stripes i).getD w 0) <<< b) &&& 0x80) != 0 then
                orBit pat ((w * 8 + b) * 16 + i / 8) (i % 8)
              else pat)
            pat)
        pat)
    (fun _ => 0)

/-- The inverse map of the transpose, as stated by the spec: the pixel at
canvas row `i`, column `x` is bit `i mod 8` of pattern byte `x*16 + i/8`. -/
def untransposePixel (pat : Nat → Nat) (i x : Nat) : Bool :=
  (pat (x * 16 + i / 8)).testBit (i % 8)

/-- The pixel at canvas row `i`, column `x` of the canvas, read the way the
C code reads it: bit `7 - (x mod 8)` of byte `x / 8` of stripe `i`,
expressed with the same shift-and-mask as the source. -/
def canvasPixel (stripes : Nat → List Nat) (i x : Nat) : Bool :=
  ((((stripes i).getD (x / 8) 0) <<< (x % 8)) &&& 0x80) != 0

/-- The printer commands issued by `main` (klg2.c lines 702-742), at the
granularity of one `printer_*` call. -/
inductive Step where
  | checkStatus | reset | feed | cut | halfcut
  | prejob | checkTape | setSpeed | setMargin | setDensity | setCutter
  | sendRaster | cancelJob
deriving DecidableEq

/-- The operation selected on the command line (klg2.c lines 83-88). -/
inductive Oper where
  | print | feed | cut | halfcut
deriving DecidableEq

/-- The guarded step chain of the print branch of `main` (klg2.c lines
721-738): each call `if (!need_cancel) need_cancel = step();`, where the
return code of the k-th `printer_*` call of the run is `o k` (0 means
success, as returned by the C functions). A step is called only when the
`need_cancel` flag is still false; its nonzero return latches the flag. -/
def runGuarded (o : Nat → Nat) : Nat → Bool → List Step → List Step
  | _, _, [] => []
  | k, needCancel, s :: rest =>
    if needCancel then runGuarded o k needCancel rest
    else s :: runGuarded o (k + 1) (o k != 0) rest

/-- The guarded steps of the print branch, in source order
(klg2.c lines 721-738). -/
def printSteps : List Step :=
  [Step.prejob, Step.checkTape, Step.reset, Step.setSpeed, Step.setMargin,
   Step.setDensity, Step.setCutter, Step.checkStatus, Step.sendRaster]

/-- The sequence of `printer_*` calls performed by `main` for a given
operation (klg2.c lines 702-743). For every operation, `main` first calls
`printer_check_status()` and `printer_reset()` with their results ignored;
the print branch then runs the guarded chain (oracle indices 2..) and
unconditionally calls `printer_cancel_job()`; the feed/cut/halfcut
branches issue their single command directly. -/
def main_trace (o : Nat → Nat) : Oper → List Step
  | Oper.print =>
      [Step.checkStatus, Step.reset] ++ runGuarded o 2 false printSteps ++
        [Step.cancelJob]
  | Oper.feed => [Step.checkStatus, Step.reset, Step.feed]
  | Oper.cut => [Step.checkStatus, Step.reset, Step.cut]
  | Oper.halfcut => [Step.checkStatus, Step.reset, Step.halfcut]

/-- Number of guarded steps actually called: the chain stops after the
first call returning nonzero. -/
def nExec (o : Nat → Nat) : Nat → List Step → Nat
  | _, [] => 0
  | k, _ :: rest => if o k = 0 then 1 + nExec o (k + 1) rest else 1

/-- Oracle under which every printer command succeeds. -/
def oZero : Nat → Nat := fun _ => 0

/-- Oracle under which only the very first `printer_*` call of the run
(the initial, unguarded `printer_check_status`) fails. -/
def oFailFirst : Nat → Nat := fun k => if k = 0 then 1 else 0

/-- Oracle under which only the third `printer_*` call of the run (the
first guarded step, `printer_prejob`) fails. -/
def oFailPrejob : Nat → Nat := fun k => if k = 2 then 1 else 0

/-- A concrete 4x2 bitmap (the spec example rows 0xA0 and 0x50). -/
def testRows : Nat → List Nat := fun i => [[0xA0], [0x50]].getD i []

example : printer_send_raster [1, 2, 3] =
    some [Cmd.rasterBlock [1, 2, 3], Cmd.rasterEnd, Cmd.printPage] := by decide

example : printer_send_raster [] = none := rfl

example : main_trace oZero Oper.feed = [Step.checkStatus, Step.reset, Step.feed] := by decide

example : main_trace oFailFirst Oper.print =
    [Step.checkStatus, Step.reset, Step.prejob, Step.checkTape, Step.reset,
     Step.setSpeed, Step.setMargin, Step.setDensity, Step.setCutter,
     Step.checkStatus, Step.sendRaster, Step.cancelJob] := by decide

example : main_trace oFailPrejob Oper.print =
    [Step.checkStatus, Step.reset, Step.prejob, Step.cancelJob] := by decide

lemma rasterStep_last (page : Nat) (acc : List Nat) (b : Nat) :
    rasterStep page acc b true =
      ([Cmd.rasterBlock (acc ++ [b]), Cmd.rasterEnd, Cmd.printPage], 0, []) := by
  simp [rasterStep]

lemma rasterStep_cont (page : Nat) (acc : List Nat) (b : Nat)
    (h1 : acc.length + 1 ≠ 60) (h2 : page + 1 ≠ 8192) :
    rasterStep page acc b false = ([], page + 1, acc ++ [b]) := by
  simp [rasterStep, h1, h2]

lemma rasterStep_blockFlush (page : Nat) (acc : List Nat) (b : Nat)
    (h1 : acc.length + 1 = 60) (h2 : page + 1 ≠ 8192) :
    rasterStep page acc b false =
      ([Cmd.rasterBlock (acc ++ [b])], page + 1, []) := by
  simp [rasterStep, h1, h2]

lemma rasterStep_pageFlush (page : Nat) (acc : List Nat) (b : Nat)
    (h2 : page + 1 = 8192) :
    rasterStep page acc b false =
      ([Cmd.rasterBlock (acc ++ [b]), Cmd.printPage], 0, []) := by
  simp [rasterStep, h2]

lemma go_singleton (page : Nat) (acc : List Nat) (b : Nat) :
    sendRasterGo page acc [b] =
      some [Cmd.rasterBlock (acc ++ [b]), Cmd.rasterEnd, Cmd.printPage] := by
  simp [sendRasterGo, rasterStep_last]

lemma go_cons (page : Nat) (acc : List Nat) (b c : Nat) (rest : List Nat) :
    sendRasterGo page acc (b :: c :: rest) =
      Option.map (fun t => (rasterStep page acc b false).1 ++ t)
        (sendRasterGo (rasterStep page acc b false).2.1
          (rasterStep page acc b false).2.2 (c :: rest)) := by
  simp [sendRasterGo]

lemma go_isSome :
    ∀ (rest : List Nat) (page : Nat) (acc : List Nat) (b : Nat),
      ∃ t, sendRasterGo page acc (b :: rest) = some t := by
  intro rest
  induction rest with
  | nil => intro page acc b; exact ⟨_, go_singleton page acc b⟩
  | cons c rs ih =>
      intro page acc b
      obtain ⟨t, ht⟩ := ih (rasterStep page acc b false).2.1
        (rasterStep page acc b false).2.2 c
      exact ⟨_, by rw [go_cons, ht]; rfl⟩

lemma rasterStep_false_no_end (page : Nat) (acc : List Nat) (b : Nat) :
    Cmd.rasterEnd ∉ (rasterStep page acc b false).1 := by
  simp only [rasterStep]
  split <;> simp

lemma go_shape :
    ∀ (rest : List Nat) (page : Nat) (acc : List Nat) (b : Nat) (t : List Cmd),
      sendRasterGo page acc (b :: rest) = some t →
      ∃ pre p, t = pre ++ [Cmd.rasterBlock p, Cmd.rasterEnd, Cmd.printPage] ∧
        Cmd.rasterEnd ∉ pre := by
  intro rest
  induction rest with
  | nil =>
      intro page acc b t h
      rw [go_singleton] at h
      exact ⟨[], acc ++ [b], by simpa using h.symm, by simp⟩
  | cons c rs ih =>
      intro page acc b t h
      rw [go_cons] at h
      rcases hgo : sendRasterGo (rasterStep page acc b false).2.1
          (rasterStep page acc b false).2.2 (c :: rs) with _ | t'
      · rw [hgo] at h; exact absurd h (by simp)
      · rw [hgo] at h
        obtain ⟨pre, p, hpre, hno⟩ := ih _ _ c t' hgo
        have ht : t = (rasterStep page acc b false).1 ++ t' := by
          simpa using h.symm
        refine ⟨(rasterStep page acc b false).1 ++ pre, p, ?_, ?_⟩
        · rw [ht, hpre, List.append_assoc]
        · simp only [List.mem_append, not_or]
          exact ⟨rasterStep_false_no_end page acc b, hno⟩

lemma blockSizes_append (l₁ l₂ : List Cmd) :
    blockSizes (l₁ ++ l₂) = blockSizes l₁ ++ blockSizes l₂ := by
  simp [blockSizes]

lemma joinBlocks_append (l₁ l₂ : List Cmd) :
    joinBlocks (l₁ ++ l₂) = joinBlocks l₁ ++ joinBlocks l₂ := by
  simp [joinBlocks]

lemma go_blockSizes_ne_nil (rest : List Nat) (page : Nat) (acc : List Nat)
    (b : Nat) (t : List Cmd) (h : sendRasterGo page acc (b :: rest) = some t) :
    blockSizes t ≠ [] := by
  obtain ⟨pre, p, rfl, -⟩ := go_shape rest page acc b t h
  simp [blockSizes_append, blockSizes]

lemma go_blocks_le :
    ∀ (rest : List Nat) (page : Nat) (acc : List Nat) (b : Nat) (t : List Cmd),
      acc.length ≤ 59 →
      sendRasterGo page acc (b :: rest) = some t →
      ∀ p, Cmd.rasterBlock p ∈ t → p.length ≤ 60 := by
  intro rest
  induction rest with
  | nil =>
      intro page acc b t hacc h p hp
      rw [go_singleton] at h
      have ht : t = [Cmd.rasterBlock (acc ++ [b]), Cmd.rasterEnd,
          Cmd.printPage] := by simpa using h.symm
      subst ht
      simp at hp
      subst hp
      simp only [List.length_append, List.length_cons, List.length_nil]
      omega
  | cons c rs ih =>
      intro page acc b t hacc h p hp
      rw [go_cons] at h
      by_cases h8 : page + 1 = 8192
      · rw [rasterStep_pageFlush page acc b h8] at h
        rcases hgo : sendRasterGo 0 [] (c :: rs) with _ | t'
        · rw [hgo] at h; exact absurd h (by simp)
        · rw [hgo] at h
          have ht : t = [Cmd.rasterBlock (acc ++ [b]), Cmd.printPage] ++ t' := by
            simpa using h.symm
          subst ht
          rcases List.mem_append.1 hp with hp1 | hp2
          · simp at hp1
            subst hp1
            simp only [List.length_append, List.length_cons, List.length_nil]
            omega
          · exact ih 0 [] c t' (by simp) hgo p hp2
      · by_cases h60 : acc.length + 1 = 60
        · rw [rasterStep_blockFlush page acc b h60 h8] at h
          rcases hgo : sendRasterGo (page + 1) [] (c :: rs) with _ | t'
          · rw [hgo] at h; exact absurd h (by simp)
          · rw [hgo] at h
            have ht : t = [Cmd.rasterBlock (acc ++ [b])] ++ t' := by
              simpa using h.symm
            subst ht
            rcases List.mem_append.1 hp with hp1 | hp2
            · simp at hp1
              subst hp1
              simp only [List.length_append, List.length_cons, List.length_nil]
              omega
            · exact ih (page + 1) [] c t' (by simp) hgo p hp2
        · rw [rasterStep_cont page acc b h60 h8] at h
          rcases hgo : sendRasterGo (page + 1) (acc ++ [b]) (c :: rs) with _ | t'
          · rw [hgo] at h; exact absurd h (by simp)
          · rw [hgo] at h
            have ht : t = t' := by simpa using h.symm
            subst ht
            refine ih (page + 1) (acc ++ [b]) c t ?_ hgo p hp
            simp only [List.length_append, List.length_cons, List.length_nil]
            omega

lemma go_join :
    ∀ (rest : List Nat) (page : Nat) (acc : List Nat) (b : Nat) (t : List Cmd),
      sendRasterGo page acc (b :: rest) = some t →
      joinBlocks t = acc ++ b :: rest := by
  intro rest
  induction rest with
  | nil =>
      intro page acc b t h
      rw [go_singleton] at h
      have ht : t = [Cmd.rasterBlock (acc ++ [b]), Cmd.rasterEnd,
          Cmd.printPage] := by simpa using h.symm
      subst ht
      simp [joinBlocks]
  | cons c rs ih =>
      intro page acc b t h
      rw [go_cons] at h
      by_cases h8 : page + 1 = 8192
      · rw [rasterStep_pageFlush page acc b h8] at h
        rcases hgo : sendRasterGo 0 [] (c :: rs) with _ | t'
        · rw [hgo] at h; exact absurd h (by simp)
        · rw [hgo] at h
          have ht : t = [Cmd.rasterBlock (acc ++ [b]), Cmd.printPage] ++ t' := by
            simpa using h.symm
          subst ht
          rw [joinBlocks_append, ih 0 [] c t' hgo]
          simp [joinBlocks]
      · by_cases h60 : acc.length + 1 = 60
        · rw [rasterStep_blockFlush page acc b h60 h8] at h
          rcases hgo : sendRasterGo (page + 1) [] (c :: rs) with _ | t'
          · rw [hgo] at h; exact absurd h (by simp)
          · rw [hgo] at h
            have ht : t = [Cmd.rasterBlock (acc ++ [b])] ++ t' := by
              simpa using h.symm
            subst ht
            rw [joinBlocks_append, ih (page + 1) [] c t' hgo]
            simp [joinBlocks]
        · rw [rasterStep_cont page acc b h60 h8] at h
          rcases hgo : sendRasterGo (page + 1) (acc ++ [b]) (c :: rs) with _ | t'
          · rw [hgo] at h; exact absurd h (by simp)
          · rw [hgo] at h
            have ht : t = t' := by simpa using h.symm
            subst ht
            rw [ih (page + 1) (acc ++ [b]) c t hgo]
            simp

lemma go_lastBlock :
    ∀ (rest : List Nat) (page : Nat) (acc : List Nat) (b : Nat) (t : List Cmd),
      acc.length ≤ 59 → page < 8192 → page % 60 = acc.length % 60 →
      sendRasterGo page acc (b :: rest) = some t →
      (blockSizes t).getLast? = some ((page + rest.length) % 8192 % 60 + 1) := by
  intro rest
  induction rest with
  | nil =>
      intro page acc b t hacc hpage hinv h
      rw [go_singleton] at h
      have ht : t = [Cmd.rasterBlock (acc ++ [b]), Cmd.rasterEnd,
          Cmd.printPage] := by simpa using h.symm
      subst ht
      simp only [blockSizes, List.filterMap, List.length_append,
        List.length_cons, List.length_nil, List.length_nil]
      have : (page + List.length ([] : List Nat)) % 8192 % 60 + 1 =
          acc.length + 0 + 1 := by
        simp only [List.length_nil]
        omega
      simp [blockSizes]
      omega
  | cons c rs ih =>
      intro page acc b t hacc hpage hinv h
      rw [go_cons] at h
      by_cases h8 : page + 1 = 8192
      · rw [rasterStep_pageFlush page acc b h8] at h
        rcases hgo : sendRasterGo 0 [] (c :: rs) with _ | t'
        · rw [hgo] at h; exact absurd h (by simp)
        · rw [hgo] at h
          have ht : t = [Cmd.rasterBlock (acc ++ [b]), Cmd.printPage] ++ t' := by
            simpa using h.symm
          subst ht
          rw [blockSizes_append,
            List.getLast?_append_of_ne_nil _ (go_blockSizes_ne_nil rs 0 [] c t' hgo),
            ih 0 [] c t' (by simp) (by omega) (by simp) hgo]
          simp only [List.length_cons, Option.some.injEq]
          omega
      · by_cases h60 : acc.length + 1 = 60
        · rw [rasterStep_blockFlush page acc b h60 h8] at h
          rcases hgo : sendRasterGo (page + 1) [] (c :: rs) with _ | t'
          · rw [hgo] at h; exact absurd h (by simp)
          · rw [hgo] at h
            have ht : t = [Cmd.rasterBlock (acc ++ [b])] ++ t' := by
              simpa using h.symm
            subst ht
            rw [blockSizes_append,
              List.getLast?_append_of_ne_nil _
                (go_blockSizes_ne_nil rs (page + 1) [] c t' hgo),
              ih (page + 1) [] c t' (by simp) (by omega) (by simp; omega) hgo]
            simp only [List.length_cons, Option.some.injEq]
            omega
        · rw [rasterStep_cont page acc b h60 h8] at h
          rcases hgo : sendRasterGo (page + 1) (acc ++ [b]) (c :: rs) with _ | t'
          · rw [hgo] at h; exact absurd h (by simp)
          · rw [hgo] at h
            have ht : t = t' := by simpa using h.symm
            subst ht
            rw [ih (page + 1) (acc ++ [b]) c t
              (by simp only [List.length_append, List.length_cons,
                List.length_nil]; omega)
              (by omega)
              (by simp only [List.length_append, List.length_cons,
                List.length_nil]; omega) hgo]
            simp only [List.length_cons, Option.some.injEq]
            omega

lemma go_countPP :
    ∀ (rest : List Nat) (page : Nat) (acc : List Nat) (b : Nat) (t : List Cmd),
      page < 8192 →
      sendRasterGo page acc (b :: rest) = some t →
      t.count Cmd.printPage = (page + rest.length + 8192) / 8192 := by
  intro rest
  induction rest with
  | nil =>
      intro page acc b t hpage h
      rw [go_singleton] at h
      have ht : t = [Cmd.rasterBlock (acc ++ [b]), Cmd.rasterEnd,
          Cmd.printPage] := by simpa using h.symm
      subst ht
      simp only [List.count_cons, List.count_nil, List.length_nil]
      have h1 : (Cmd.printPage == Cmd.printPage) = true := by decide
      have h2 : (Cmd.rasterEnd == Cmd.printPage) = false := by decide
      have h3 : (Cmd.rasterBlock (acc ++ [b]) == Cmd.printPage) = false := by
        simp
      rw [h1, h2, h3]
      simp
      omega
  | cons c rs ih =>
      intro page acc b t hpage h
      rw [go_cons] at h
      by_cases h8 : page + 1 = 8192
      · rw [rasterStep_pageFlush page acc b h8] at h
        rcases hgo : sendRasterGo 0 [] (c :: rs) with _ | t'
        · rw [hgo] at h; exact absurd h (by simp)
        · rw [hgo] at h
          have ht : t = [Cmd.rasterBlock (acc ++ [b]), Cmd.printPage] ++ t' := by
            simpa using h.symm
          subst ht
          rw [List.count_append, ih 0 [] c t' (by omega) hgo]
          simp only [List.count_cons, List.count_nil, List.length_cons]
          have h1 : (Cmd.printPage == Cmd.printPage) = true := by decide
          have h3 : (Cmd.rasterBlock (acc ++ [b]) == Cmd.printPage) = false := by
            simp
          rw [h1, h3]
          simp
          omega
      · by_cases h60 : acc.length + 1 = 60
        · rw [rasterStep_blockFlush page acc b h60 h8] at h
          rcases hgo : sendRasterGo (page + 1) [] (c :: rs) with _ | t'
          · rw [hgo] at h; exact absurd h (by simp)
          · rw [hgo] at h
            have ht : t = [Cmd.rasterBlock (acc ++ [b])] ++ t' := by
              simpa using h.symm
            subst ht
            rw [List.count_append, ih (page + 1) [] c t' (by omega) hgo]
            simp only [List.count_cons, List.count_nil, List.length_cons]
            have h3 : (Cmd.rasterBlock (acc ++ [b]) == Cmd.printPage) = false := by
              simp
            rw [h3]
            simp
            omega
        · rw [rasterStep_cont page acc b h60 h8] at h
          rcases hgo : sendRasterGo (page + 1) (acc ++ [b]) (c :: rs) with _ | t'
          · rw [hgo] at h; exact absurd h (by simp)
          · rw [hgo] at h
            have ht : t = t' := by simpa using h.symm
            subst ht
            rw [ih (page + 1) (acc ++ [b]) c t (by omega) hgo]
            simp only [List.length_cons]
            omega

lemma runGuarded_true :
    ∀ (L : List Step) (o : Nat → Nat) (k : Nat), runGuarded o k true L = [] := by
  intro L
  induction L with
  | nil => intro o k; rfl
  | cons s rest ih => intro o k; simpa [runGuarded] using ih o k

lemma runGuarded_take :
    ∀ (L : List Step) (o : Nat → Nat) (k : Nat),
      runGuarded o k false L = L.take (nExec o k L) := by
  intro L
  induction L with
  | nil => intro o k; rfl
  | cons s rest ih =>
      intro o k
      by_cases hk : o k = 0
      · have hb : (o k != 0) = false := by simp [hk]
        simp only [runGuarded, nExec, hk, hb, ih, if_true, if_false,
          Bool.false_eq_true]
        rw [Nat.add_comm 1 (nExec o (k + 1) rest), List.take_succ_cons]
        simp [ih]
      · have hb : (o k != 0) = true := by simp [hk]
        simp [runGuarded, nExec, hk, hb, runGuarded_true]

lemma nExec_at :
    ∀ (L : List Step) (o : Nat → Nat) (k i : Nat),
      i < L.length → (∀ j, j < i → o (k + j) = 0) → o (k + i) ≠ 0 →
      nExec o k L = i + 1 := by
  intro L
  induction L with
  | nil => intro o k i hi _ _; simp at hi
  | cons s rest ih =>
      intro o k i hi hpre hfail
      cases i with
      | zero =>
          have hk : o k ≠ 0 := by simpa using hfail
          simp [nExec, hk]
      | succ m =>
          have hk : o k = 0 := by simpa using hpre 0 (by omega)
          have hm : m < rest.length := by simpa using hi
          have hpre2 : ∀ j, j < m → o (k + 1 + j) = 0 := by
            intro j hj
            have h := hpre (j + 1) (by omega)
            rwa [show k + (j + 1) = k + 1 + j by omega] at h
          have hfail2 : o (k + 1 + m) ≠ 0 := by
            rwa [show k + (m + 1) = k + 1 + m by omega] at hfail
          simp only [nExec, hk, if_true, ih o (k + 1) m hm hpre2 hfail2]
          omega

lemma testBit_orBit_if (c : Bool) (pat : Nat → Nat) (i0 b0 idx bit : Nat) :
    ((if c then orBit pat i0 b0 else pat) idx).testBit bit =
      (((pat idx).testBit bit) || (c && (i0 == idx) && (b0 == bit))) := by
  cases c
  · simp
  · simp only [if_true, Bool.true_and]
    by_cases hidx : idx = i0
    · subst hidx
      simp only [orBit, if_pos rfl]
      by_cases hb : b0 = bit
      · subst hb
        simp [Nat.testBit_or, Nat.one_shiftLeft, Nat.testBit_two_pow]
      · simp [Nat.testBit_or, Nat.one_shiftLeft, Nat.testBit_two_pow, hb]
    · have h1 : (i0 == idx) = false := by
        simp [beq_eq_false_iff_ne]
        exact fun h => hidx h.symm
      simp [orBit, hidx, h1]

lemma testBit_foldl_or {γ : Type} (F : (Nat → Nat) → γ → (Nat → Nat))
    (P : γ → Bool) (idx bit : Nat)
    (hF : ∀ (pat : Nat → Nat) (x : γ),
      ((F pat x) idx).testBit bit = (((pat idx).testBit bit) || P x)) :
    ∀ (l : List γ) (pat : Nat → Nat),
      ((l.foldl F pat) idx).testBit bit =
        (((pat idx).testBit bit) || l.any P) := by
  intro l
  induction l with
  | nil => intro pat; simp
  | cons x xs ih =>
      intro pat
      simp only [List.foldl_cons, List.any_cons]
      rw [ih, hF]
      cases (pat idx).testBit bit <;> cases P x <;> simp

lemma testBit_loop_b (stripes : Nat → List Nat) (i w idx bit : Nat)
    (pat : Nat → Nat) :
    (((List.range 8).foldl
        (fun pat b =>
          if ((((stripes i).getD w 0) <<< b) &&& 0x80) != 0 then
            orBit pat ((w * 8 + b) * 16 + i / 8) (i % 8)
          else pat) pat) idx).testBit bit =
      (((pat idx).testBit bit) ||
        (List.range 8).any fun b =>
          (((((stripes i).getD w 0) <<< b) &&& 0x80) != 0) &&
            (((w * 8 + b) * 16 + i / 8) == idx) && ((i % 8) == bit)) :=
  testBit_foldl_or
    (fun pat b =>
      if ((((stripes i).getD w 0) <<< b) &&& 0x80) != 0 then
        orBit pat ((w * 8 + b) * 16 + i / 8) (i % 8)
      else pat)
    (fun b =>
      (((((stripes i).getD w 0) <<< b) &&& 0x80) != 0) &&
        (((w * 8 + b) * 16 + i / 8) == idx) && ((i % 8) == bit))
    idx bit
    (fun pat b => testBit_orBit_if _ pat _ _ idx bit) _ pat

lemma testBit_loop_w (stripes : Nat → List Nat) (wbytes i idx bit : Nat)
    (pat : Nat → Nat) :
    (((List.range wbytes).foldl
        (fun pat w =>
          (List.range 8).foldl
            (fun pat b =>
              if ((((stripes i).getD w 0) <<< b) &&& 0x80) != 0 then
                orBit pat ((w * 8 + b) * 16 + i / 8) (i % 8)
              else pat) pat) pat) idx).testBit bit =
      (((pat idx).testBit bit) ||
        (List.range wbytes).any fun w =>
          (List.range 8).any fun b =>
            (((((stripes i).getD w 0) <<< b) &&& 0x80) != 0) &&
              (((w * 8 + b) * 16 + i / 8) == idx) && ((i % 8) == bit)) :=
  testBit_foldl_or
    (fun pat w =>
      (List.range 8).foldl
        (fun pat b =>
          if ((((stripes i).getD w 0) <<< b) &&& 0x80) != 0 then
            orBit pat ((w * 8 + b) * 16 + i / 8) (i % 8)
          else pat) pat)
    (fun w =>
      (List.range 8).any fun b =>
        (((((stripes i).getD w 0) <<< b) &&& 0x80) != 0) &&
          (((w * 8 + b) * 16 + i / 8) == idx) && ((i % 8) == bit))
    idx bit
    (fun pat w => testBit_loop_b stripes i w idx bit pat) _ pat

lemma testBit_loop_i (stripes : Nat → List Nat) (wbytes idx bit : Nat)
    (pat : Nat → Nat) :
    (((List.range 128).foldl
        (fun pat i =>
          (List.range wbytes).foldl
            (fun pat w =>
              (List.range 8).foldl
                (fun pat b =>
                  if ((((stripes i).getD w 0) <<< b) &&& 0x80) != 0 then
                    orBit pat ((w * 8 + b) * 16 + i / 8) (i % 8)
                  else pat) pat) pat) pat) idx).testBit bit =
      (((pat idx).testBit bit) ||
        (List.range 128).any fun i =>
          (List.range wbytes).any fun w =>
            (List.range 8).any fun b =>
              (((((stripes i).getD w 0) <<< b) &&& 0x80) != 0) &&
                (((w * 8 + b) * 16 + i / 8) == idx) && ((i % 8) == bit)) :=
  testBit_foldl_or
    (fun pat i =>
      (List.range wbytes).foldl
        (fun pat w =>
          (List.range 8).foldl
            (fun pat b =>
              if ((((stripes i).getD w 0) <<< b) &&& 0x80) != 0 then
                orBit pat ((w * 8 + b) * 16 + i / 8) (i % 8)
              else pat) pat) pat)
    (fun i =>
      (List.range wbytes).any fun w =>
        (List.range 8).any fun b =>
          (((((stripes i).getD w 0) <<< b) &&& 0x80) != 0) &&
            (((w * 8 + b) * 16 + i / 8) == idx) && ((i % 8) == bit))
    idx bit
    (fun pat i => testBit_loop_w stripes wbytes i idx bit pat) _ pat

lemma testBit_transposeLoop (stripes : Nat → List Nat) (wbytes idx bit : Nat) :
    ((transposeLoop stripes wbytes) idx).testBit bit =
      ((List.range 128).any fun i =>
        (List.range wbytes).any fun w =>
          (List.range 8).any fun b =>
            (((((stripes i).getD w 0) <<< b) &&& 0x80) != 0) &&
              (((w * 8 + b) * 16 + i / 8) == idx) && ((i % 8) == bit)) := by
  unfold transposeLoop
  rw [testBit_loop_i]
  simp [Nat.zero_testBit]

lemma bool_eq_of_iff {a b : Bool} (h : a = true ↔ b = true) : a = b := by
  cases a <;> cases b <;> simp_all

lemma transpose_untranspose (st : Nat → List Nat) (wbytes I X : Nat)
    (hI : I < 128) (hX : X < 8 * wbytes) :
    untransposePixel (transposeLoop st wbytes) I X = canvasPixel st I X := by
  rw [untransposePixel, testBit_transposeLoop]
  apply bool_eq_of_iff
  simp only [List.any_eq_true, List.mem_range, Bool.and_eq_true, beq_iff_eq,
    bne_iff_ne, canvasPixel]
  constructor
  · rintro ⟨i, hi, w, hw, b, hb, ⟨hcond, hidx⟩, hbit⟩
    have h1 : i = I := by omega
    have h2 : w = X / 8 := by omega
    have h3 : b = X % 8 := by omega
    subst h1; subst h2; subst h3
    exact hcond
  · intro hpix
    exact ⟨I, hI, X / 8, by omega, X % 8, by omega, ⟨hpix, by omega⟩, rfl⟩

/-- Claim C1 (amended): every raster block payload emitted by
`printer_send_raster` has at most 60 bytes; and when the pattern fits in a
single 8192-byte page, the final block payload length is
`pattern_size mod 60` when that is nonzero, else 60. (For patterns larger
than 8192 bytes the flush at the page boundary breaks the alignment, see
the counterexample.) -/
theorem C1_raster_chunking (raw : List Nat) (t : List Cmd)
    (h : printer_send_raster raw = some t) :
    (∀ p, Cmd.rasterBlock p ∈ t → p.length ≤ 60) ∧
    (raw.length ≤ 8192 →
      (blockSizes t).getLast? =
        some (if raw.length % 60 = 0 then 60 else raw.length % 60)) := by
  rcases raw with _ | ⟨b, rest⟩
  · simp [printer_send_raster, sendRasterGo] at h
  · constructor
    · exact go_blocks_le rest 0 [] b t (by simp) h
    · intro hle
      rw [go_lastBlock rest 0 [] b t (by simp) (by omega) (by simp) h]
      simp only [List.length_cons] at hle
      have hr : (0 + rest.length) % 8192 = rest.length := by omega
      rw [hr]
      simp only [List.length_cons, Option.some.injEq]
      by_cases h0 : (rest.length + 1) % 60 = 0
      · rw [if_pos h0]; omega
      · rw [if_neg h0]; omega

/-- Claim C1 witness: for the 3-byte pattern `[1,2,3]` every block payload
has at most 60 bytes and the final block payload has `3 mod 60 = 3` bytes. -/
theorem C1_witness :
    ([1, 2, 3] : List Nat).length ≤ 60 ∧
    (blockSizes [Cmd.rasterBlock [1, 2, 3], Cmd.rasterEnd,
      Cmd.printPage]).getLast? = some 3 := by
  have h := C1_raster_chunking [1, 2, 3]
    [Cmd.rasterBlock [1, 2, 3], Cmd.rasterEnd, Cmd.printPage] (by decide)
  exact ⟨h.1 [1, 2, 3] (by decide), by simpa using h.2 (by decide)⟩

/-- Claim C1 counterexample: for a pattern of 8193 bytes the final raster
block of the transfer has payload length 1, not `8193 mod 60 = 33` as the
claim states: the flush forced at the 8192-byte page boundary resets the
block alignment. -/
theorem C1_counterexample :
    lastBlock? (printer_send_raster (List.replicate 8193 0)) = some 1 ∧
    (8193 : Nat) % 60 = 33 := by
  have hrep : List.replicate 8193 (0 : Nat) = 0 :: List.replicate 8192 0 := by
    rw [show (8193 : Nat) = 8192 + 1 from rfl, List.replicate_succ]
  obtain ⟨t, ht⟩ := go_isSome (List.replicate 8192 0) 0 [] 0
  have h8193 : printer_send_raster (List.replicate 8193 0) = some t := by
    show sendRasterGo 0 [] (List.replicate 8193 0) = some t
    rw [hrep]; exact ht
  have hlast := go_lastBlock (List.replicate 8192 0) 0 [] 0 t (by simp)
    (by omega) (by simp) ht
  constructor
  · rw [show lastBlock? (printer_send_raster (List.replicate 8193 0)) =
        (blockSizes t).getLast? from by rw [h8193]; rfl]
    rw [hlast]
    simp only [List.length_replicate, Option.some.injEq]
  · norm_num

/-- Claim C4: streaming a nonempty pattern emits PrintPage exactly
`ceil(pattern_size / 8192)` times, and the page accumulator is reset to 0
by any loop iteration that emits PrintPage. -/
theorem C4_print_page_count (raw : List Nat) (t : List Cmd)
    (h : printer_send_raster raw = some t) :
    t.count Cmd.printPage = (raw.length + 8191) / 8192 ∧
    (∀ (page : Nat) (acc : List Nat) (b : Nat) (last : Bool),
      Cmd.printPage ∈ (rasterStep page acc b last).1 →
      (rasterStep page acc b last).2.1 = 0) := by
  constructor
  · rcases raw with _ | ⟨b, rest⟩
    · simp [printer_send_raster, sendRasterGo] at h
    · have hc := go_countPP rest 0 [] b t (by omega) h
      simp only [List.length_cons]
      rw [hc]
      omega
  · intro page acc b last hmem
    cases last with
    | false =>
        by_cases h8 : page + 1 = 8192
        · rw [rasterStep_pageFlush page acc b h8]
        · by_cases h60 : acc.length + 1 = 60
          · rw [rasterStep_blockFlush page acc b h60 h8] at hmem
            simp at hmem
          · rw [rasterStep_cont page acc b h60 h8] at hmem
            simp at hmem
    | true => rw [rasterStep_last]

/-- Claim C4 witness: the 1-byte pattern `[5]` yields exactly
`ceil(1/8192) = 1` PrintPage command. -/
theorem C4_witness :
    ([Cmd.rasterBlock [5], Cmd.rasterEnd, Cmd.printPage].count Cmd.printPage) =
      (([5] : List Nat).length + 8191) / 8192 :=
  (C4_print_page_count [5] _ (by decide)).1

/-- Claim C5: in every raster transfer the trace ends with the last raster
block followed immediately by RasterEnd and then the final PrintPage, and
RasterEnd occurs nowhere else (so it is emitted exactly once). -/
theorem C5_raster_end_once (raw : List Nat) (t : List Cmd)
    (h : printer_send_raster raw = some t) :
    ∃ pre p, t = pre ++ [Cmd.rasterBlock p, Cmd.rasterEnd, Cmd.printPage] ∧
      Cmd.rasterEnd ∉ pre ∧ t.count Cmd.rasterEnd = 1 := by
  rcases raw with _ | ⟨b, rest⟩
  · simp [printer_send_raster, sendRasterGo] at h
  · obtain ⟨pre, p, rfl, hno⟩ := go_shape rest 0 [] b _ h
    refine ⟨pre, p, rfl, hno, ?_⟩
    rw [List.count_append, List.count_eq_zero.mpr hno]
    have h1 : (Cmd.rasterBlock p == Cmd.rasterEnd) = false := by simp
    have h2 : (Cmd.rasterEnd == Cmd.rasterEnd) = true := by decide
    have h3 : (Cmd.printPage == Cmd.rasterEnd) = false := by decide
    simp [List.count_cons, h1, h2, h3]

/-- Claim C5 witness: for the 1-byte pattern `[9]` the trace is
`[RasterBlock [9], RasterEnd, PrintPage]` and RasterEnd occurs once. -/
theorem C5_witness :
    ([Cmd.rasterBlock [9], Cmd.rasterEnd, Cmd.printPage].count
      Cmd.rasterEnd) = 1 := by
  obtain ⟨pre, p, heq, hno, hcount⟩ := C5_raster_end_once [9]
    [Cmd.rasterBlock [9], Cmd.rasterEnd, Cmd.printPage] (by decide)
  exact hcount

/-- Claim C10 (amended): the do-while loop of `printer_send_raster` runs
its body at least once; for `rawsize = 0` that body reads index 0 of the
empty pattern buffer (modelled as `none`) and the call emits no command at
all; for `rawsize ≥ 1` the loop is safe (never `none`) and the emitted
raster block payloads concatenate to exactly the pattern bytes. -/
theorem C10_raster_precondition :
    printer_send_raster [] = none ∧
    (∀ (raw : List Nat) (t : List Cmd), printer_send_raster raw = some t →
      joinBlocks t = raw) ∧
    (∀ (b : Nat) (rest : List Nat), ∃ t,
      printer_send_raster (b :: rest) = some t) := by
  refine ⟨rfl, ?_, ?_⟩
  · intro raw t h
    rcases raw with _ | ⟨b, rest⟩
    · simp [printer_send_raster, sendRasterGo] at h
    · simpa using go_join rest 0 [] b t h
  · intro b rest
    exact go_isSome rest 0 [] b

/-- Claim C10 witness: the pattern `[7, 8]` streams safely and its block
payloads concatenate back to `[7, 8]`. -/
theorem C10_witness :
    joinBlocks [Cmd.rasterBlock [7, 8], Cmd.rasterEnd, Cmd.printPage] =
      [7, 8] :=
  C10_raster_precondition.2.1 [7, 8]
    [Cmd.rasterBlock [7, 8], Cmd.rasterEnd, Cmd.printPage] (by decide)

/-- Claim C10 counterexample: with `rawsize = 0` the single do-while
iteration runs with the C condition `sent_size == rawsize` being
`1 == 0` (false), so it emits nothing, and the whole call emits no raster
block, no RasterEnd and no PrintPage (it only performs the out-of-bounds
read, modelled as `none`), contrary to the claim that a block, RasterEnd
and PrintPage are still emitted. -/
theorem C10_counterexample :
    (rasterStep 0 [] 0 ((1 : Nat) == 0)).1 = [] ∧
    printer_send_raster [] = none := by
  exact ⟨by decide, rfl⟩

/-- Claim C2 (amended): in the print branch, if one of the eight guarded
setup steps (prejob, tape-check, reset, speed, margin, density, cutter,
status-check, in that order, at oracle indices 2..9) is the first to fail,
then the trace is exactly the two initial unguarded calls, the guarded
steps up to and including the failing one, and a single final cancel-job;
in particular no later setup step and no raster streaming executes and
cancel-job is issued exactly once. (The two initial unguarded calls are
not covered: their results are ignored by `main`, see the
counterexample.) -/
theorem C2_failfast (o : Nat → Nat) (i : Nat) (hi : i < 8)
    (hpre : ∀ j, j < i → o (2 + j) = 0) (hfail : o (2 + i) ≠ 0) :
    main_trace o Oper.print =
      [Step.checkStatus, Step.reset] ++ printSteps.take (i + 1) ++
        [Step.cancelJob] ∧
    (main_trace o Oper.print).count Step.cancelJob = 1 ∧
    Step.sendRaster ∉ main_trace o Oper.print := by
  have hn : nExec o 2 printSteps = i + 1 :=
    nExec_at printSteps o 2 i (by simp [printSteps]; omega) hpre hfail
  have h1 : main_trace o Oper.print =
      [Step.checkStatus, Step.reset] ++ printSteps.take (i + 1) ++
        [Step.cancelJob] := by
    simp only [main_trace, runGuarded_take, hn]
  refine ⟨h1, ?_, ?_⟩
  · rw [h1, List.count_append, List.count_append]
    have hc : (printSteps.take (i + 1)).count Step.cancelJob = 0 := by
      have hsub := (List.take_sublist (i + 1) printSteps).count_le
        Step.cancelJob
      have hz : printSteps.count Step.cancelJob = 0 := by decide
      omega
    rw [hc]
    decide
  · rw [h1]
    intro hmem
    have hsplit : Step.sendRaster ∈ [Step.checkStatus, Step.reset] ∨
        Step.sendRaster ∈ printSteps.take (i + 1) ∨
        Step.sendRaster ∈ [Step.cancelJob] := by
      simpa [List.mem_append] using hmem
    rcases hsplit with h' | h' | h'
    · exact absurd h' (by decide)
    · interval_cases i <;> exact absurd h' (by decide)
    · exact absurd h' (by decide)

/-- Claim C2 witness: when the first guarded step (prejob, oracle index 2)
fails and everything else succeeds, the trace is the two initial calls,
prejob, and one cancel-job; raster streaming never runs. -/
theorem C2_witness :
    main_trace oFailPrejob Oper.print =
      [Step.checkStatus, Step.reset] ++ printSteps.take (0 + 1) ++
        [Step.cancelJob] ∧
    (main_trace oFailPrejob Oper.print).count Step.cancelJob = 1 ∧
    Step.sendRaster ∉ main_trace oFailPrejob Oper.print :=
  C2_failfast oFailPrejob 0 (by omega)
    (fun j hj => absurd hj (Nat.not_lt_zero j)) (by decide)

/-- Claim C2 counterexample: the first `printer_check_status()` call of
the run is a setup step that reports a recoverable error (return code 1),
yet every subsequent setup step and the raster streaming still execute:
`main` ignores the results of the two initial unguarded calls
(klg2.c lines 703-704). -/
theorem C2_counterexample :
    oFailFirst 0 ≠ 0 ∧
    main_trace oFailFirst Oper.print =
      [Step.checkStatus, Step.reset, Step.prejob, Step.checkTape, Step.reset,
       Step.setSpeed, Step.setMargin, Step.setDensity, Step.setCutter,
       Step.checkStatus, Step.sendRaster, Step.cancelJob] := by
  exact ⟨by decide, by decide⟩

/-- Claim C3 (amended): the non-print operations bypass the guarded print
sequence and its cancel-job follow-up, but `main` still issues the two
initial unguarded commands first: the full trace is status-check, reset,
then exactly one feed/cut/half-cut command, with no cancel-job. -/
theorem C3_nonprint (o : Nat → Nat) :
    main_trace o Oper.feed = [Step.checkStatus, Step.reset, Step.feed] ∧
    main_trace o Oper.cut = [Step.checkStatus, Step.reset, Step.cut] ∧
    main_trace o Oper.halfcut =
      [Step.checkStatus, Step.reset, Step.halfcut] ∧
    Step.cancelJob ∉ main_trace o Oper.feed ∧
    Step.cancelJob ∉ main_trace o Oper.cut ∧
    Step.cancelJob ∉ main_trace o Oper.halfcut := by
  refine ⟨rfl, rfl, rfl, ?_, ?_, ?_⟩ <;> simp [main_trace]

/-- Claim C3 witness: under the all-success oracle the feed trace is
exactly status-check, reset, feed, with no cancel-job. -/
theorem C3_witness :
    main_trace oZero Oper.feed = [Step.checkStatus, Step.reset, Step.feed] ∧
    main_trace oZero Oper.cut = [Step.checkStatus, Step.reset, Step.cut] ∧
    main_trace oZero Oper.halfcut =
      [Step.checkStatus, Step.reset, Step.halfcut] ∧
    Step.cancelJob ∉ main_trace oZero Oper.feed ∧
    Step.cancelJob ∉ main_trace oZero Oper.cut ∧
    Step.cancelJob ∉ main_trace oZero Oper.halfcut :=
  C3_nonprint oZero

/-- Claim C3 counterexample: in the feed operation the program issues
three printer commands (status-check, reset, feed), not exactly one as the
claim states; no cancel-job is issued. -/
theorem C3_counterexample :
    (main_trace oZero Oper.feed).length = 3 ∧ (3 : Nat) ≠ 1 ∧
    Step.cancelJob ∉ main_trace oZero Oper.feed := by
  exact ⟨by decide, by decide, by decide⟩

/-- Claim C6: for every bitmap of height at most 128, transposing the
centered 128-row canvas with the loop of `load_image` and reading the
pattern back through the inverse map of the spec (bit `i mod 8` of byte
`x*16 + i/8`) reproduces every pixel of the centered canvas, for all rows
`i < 128` and columns `x < width`. -/
theorem C6_transpose_roundtrip (height imgW : Nat) (rows : Nat → List Nat)
    (I X : Nat) (hh : height ≤ 128) (hI : I < 128) (hX : X < imgW) :
    untransposePixel
        (transposeLoop (image_stripes height rows ((imgW + 7) / 8))
          ((imgW + 7) / 8)) I X =
      canvasPixel (image_stripes height rows ((imgW + 7) / 8)) I X := by
  apply transpose_untranspose
  · exact hI
  · omega

/-- Claim C6 witness: for the spec example bitmap (4x2, rows 0xA0, 0x50),
the transposed pattern read back at canvas row 63, column 0 is the set
pixel of row 0 of the bitmap. -/
theorem C6_witness :
    untransposePixel
        (transposeLoop (image_stripes 2 testRows ((4 + 7) / 8))
          ((4 + 7) / 8)) 63 0 = true := by
  rw [C6_transpose_roundtrip 2 4 testRows 63 0 (by omega) (by omega)
    (by omega)]
  decide

/-- Claim C7: for height below 128 the loader centers the bitmap with
`(128 - height) / 2` zero rows above and `128 - height - pad_top` zero
rows below (every canvas row outside the band `[pad_top, pad_top+height)`
is a zero stripe, and the band holds the bitmap rows in order); for height
above 128 only the first 128 rows are used. -/
theorem C7_centering (height : Nat) (rows : Nat → List Nat) (wbytes : Nat) :
    (height < 128 →
      (∀ i, i < (128 - height) / 2 →
        image_stripes height rows wbytes i = List.replicate wbytes 0) ∧
      (∀ i, (128 - height) / 2 + height ≤ i →
        image_stripes height rows wbytes i = List.replicate wbytes 0) ∧
      (∀ i, i < height →
        image_stripes height rows wbytes ((128 - height) / 2 + i) = rows i) ∧
      128 - height - (128 - height) / 2 =
        128 - ((128 - height) / 2 + height)) ∧
    (128 < height → ∀ i, i < 128 →
      image_stripes height rows wbytes i = rows i) := by
  constructor
  · intro h
    have hmin : min height 128 = height := Nat.min_eq_left (by omega)
    refine ⟨?_, ?_, ?_, by omega⟩
    · intro i hi
      simp only [image_stripes, hmin]
      split
      · omega
      · rfl
    · intro i hi
      simp only [image_stripes, hmin]
      split
      · omega
      · rfl
    · intro i hi
      simp only [image_stripes, hmin]
      split
      · congr 1
        omega
      · omega
  · intro h i hi
    have hmin : min height 128 = 128 := Nat.min_eq_right (by omega)
    simp only [image_stripes, hmin]
    split
    · congr 1
    · omega

/-- Claim C7 witness: the 4x2 example bitmap is centered with 63 zero rows
above (row 0 is zero), rows 63 and 64 are the bitmap rows, and the rows
from 65 on are zero (row 127 checked). -/
theorem C7_witness :
    image_stripes 2 testRows 1 0 = List.replicate 1 0 ∧
    image_stripes 2 testRows 1 127 = List.replicate 1 0 ∧
    image_stripes 2 testRows 1 ((128 - 2) / 2 + 0) = testRows 0 := by
  have h := (C7_centering 2 testRows 1).1 (by omega)
  exact ⟨h.1 0 (by omega), h.2.1 127 (by omega), h.2.2.1 0 (by omega)⟩

/-- Claim C8: the shared ACK validator `printer_recv_ack` succeeds exactly
on the single-byte response `[0x06]`; any other single byte and any other
response length are rejected as a recoverable error. -/
theorem C8_ack_validator (rsp : List Nat) :
    printer_recv_ack rsp = 0 ↔ rsp = [PRINTER_ACK] := by
  rcases rsp with _ | ⟨a, _ | ⟨b, l⟩⟩
  · simp [printer_recv_ack]
  · by_cases ha : a = PRINTER_ACK <;>
      simp [printer_recv_ack, ha, PRINTER_ACK]
  · simp [printer_recv_ack]

/-- Claim C8 witness: `[0x06]` is accepted; `[0x05]`, the empty response
and a two-byte response are rejected. -/
theorem C8_witness :
    printer_recv_ack [PRINTER_ACK] = 0 ∧
    printer_recv_ack [0x05] ≠ 0 ∧
    printer_recv_ack [] ≠ 0 ∧
    printer_recv_ack [PRINTER_ACK, PRINTER_ACK] ≠ 0 := by
  refine ⟨(C8_ack_validator [PRINTER_ACK]).mpr rfl, ?_, ?_, ?_⟩ <;>
    · intro h
      have hx := (C8_ack_validator _).mp h
      simp [PRINTER_ACK] at hx

/-- Claim C9: the wire frame built for margin=small is literally
`[0x02, 0x0D, 0x01, 0x00, 0x40]` zero-padded to exactly 16 bytes, and it
is transmitted at exactly 16 bytes. -/
theorem C9_margin_frame :
    printer_set_margin_frame MARGINCODE_SMALL =
      some ([0x02, 0x0D, 0x01, 0x00, 0x40] ++ List.replicate 11 0) ∧
    Option.map List.length (printer_set_margin_frame MARGINCODE_SMALL) =
      some 16 := by
  exact ⟨by decide, by decide⟩
